import Mathlib

/-!
# Verification of the ForIT M365 connection-registry adapters

A shallow embedding of the two adapter programs
(`microsoft-master/server.py` and `pwsh-manager/mcp_server.py`):
the shared connection registry (a JSON document holding a
`connections` mapping), the registry tool operations
(`connection_add` / `connection_remove` / `connection_update`),
the auth-state dispatch of the `run` tool, the per-adapter
connection filter of the pwsh-manager adapter, and the transport
error normalization of both HTTP clients.

Python dictionaries are embedded as insertion-ordered association
lists; JSON values occurring in connection records as `JVal`;
Python string helpers (`str.strip`, `str.lower`, truthiness) as
explicit functions over `List Char` / `String` restricted to the
ASCII behaviour the registry data uses.
-/

namespace M365

/-! ## Python dictionaries as insertion-ordered association lists -/

/-- `m.get(k)`: the value of the first binding of `k`, if any
(Python dictionaries never hold duplicate keys, so "first" is exact). -/
def dget {α : Type} (m : List (String × α)) (k : String) : Option α :=
  match m with
  | [] => none
  | (k', v) :: rest => if k' = k then some v else dget rest k

/-- `m[k] = v`: Python dict assignment — update the existing binding in
place (keeping its position) or append a new binding at the end. -/
def dset {α : Type} (m : List (String × α)) (k : String) (v : α) :
    List (String × α) :=
  match m with
  | [] => [(k, v)]
  | (k', v') :: rest => if k' = k then (k, v) :: rest else (k', v') :: dset rest k v

/-- `m.pop(k)`: remove the binding of `k` (the first occurrence). -/
def derase {α : Type} (m : List (String × α)) (k : String) :
    List (String × α) :=
  match m with
  | [] => []
  | (k', v') :: rest => if k' = k then rest else (k', v') :: derase rest k

/-- `list(m.keys())`. -/
def dkeys {α : Type} (m : List (String × α)) : List String :=
  m.map Prod.fst

/-! ## JSON values, connection records, the registry -/

/-- The JSON values that occur in this system's registry documents and
pool responses: strings, arrays of strings (the `mcps` field) and
booleans (the `success` field of pool error results). -/
inductive JVal where
  | str : String → JVal
  | strs : List String → JVal
  | bool : Bool → JVal
deriving DecidableEq, Repr

/-- A connection record: a JSON object (Python dict). -/
abbrev Conn := List (String × JVal)

/-- The `connections` mapping of the registry document:
connection name → record. -/
abbrev Registry := List (String × Conn)

/-- `conn.get(k, "")` where a string is expected. -/
def getStr (c : Conn) (k : String) : String :=
  match dget c k with
  | some (.str s) => s
  | _ => ""

/-- `conn.get(k, [])` where an array of strings is expected. -/
def getStrs (c : Conn) (k : String) : List String :=
  match dget c k with
  | some (.strs l) => l
  | _ => []

/-! ## Python string primitives -/

/-- The (ASCII) whitespace characters recognised by `str.strip()`. -/
def isPyWs (c : Char) : Bool :=
  c = ' ' || c = '\t' || c = '\n' || c = '\r' || c = '\x0b' || c = '\x0c'

/-- `str.strip()` on the character list. -/
def pyStripL (l : List Char) : List Char :=
  ((l.dropWhile isPyWs).reverse.dropWhile isPyWs).reverse

/-- `s.strip()`. -/
def pyStrip (s : String) : String :=
  ⟨pyStripL s.data⟩

/-- ASCII case folding of one character (`str.lower()` restricted to
ASCII, which is all that email addresses and tenant names use). -/
def lowerChar (c : Char) : Char :=
  if 'A' ≤ c ∧ c ≤ 'Z' then Char.ofNat (c.toNat + 32) else c

/-- `s.lower()` (ASCII). -/
def asciiLower (s : String) : String :=
  ⟨s.data.map lowerChar⟩

/-- Python truthiness of `args.get(f)` for an optional string field:
falsy when the key is absent or the value is the empty string. -/
def truthyS (o : Option String) : Bool :=
  match o with
  | none => false
  | some s => s ≠ ""

/-- Python truthiness of `args.get(f)` for an optional list field:
falsy when the key is absent or the list is empty. -/
def truthyL (o : Option (List String)) : Bool :=
  match o with
  | none => false
  | some l => l ≠ []

/-! ## GUID validation (`is_valid_guid`, microsoft-master/server.py) -/

/-- A hexadecimal digit, the character class `[0-9a-fA-F]`. -/
def hexc (c : Char) : Bool :=
  c.isDigit || ('a' ≤ c && c ≤ 'f') || ('A' ≤ c && c ≤ 'F')

/-- Consume exactly `n` hex digits, returning the remainder. -/
def takeHex : Nat → List Char → Option (List Char)
  | 0, l => some l
  | _ + 1, [] => none
  | n + 1, c :: l => if hexc c then takeHex n l else none

/-- Consume one expected character. -/
def expectChar (c : Char) : List Char → Option (List Char)
  | [] => none
  | d :: l => if d = c then some l else none

/-- `re.match(r'^...$', s)`: after the pattern, `$` accepts the end of the
string or a single trailing newline. -/
def dollarEnd (l : List Char) : Bool :=
  l = [] || l = ['\n']

/-- `is_valid_guid(s)`: `re.match` of
`^[0-9a-fA-F]{8}-[0-9a-fA-F]{4}-[0-9a-fA-F]{4}-[0-9a-fA-F]{4}-[0-9a-fA-F]{12}$`. -/
def is_valid_guid (s : String) : Bool :=
  match (takeHex 8 s.data).bind (expectChar '-') |>.bind (takeHex 4)
      |>.bind (expectChar '-') |>.bind (takeHex 4) |>.bind (expectChar '-')
      |>.bind (takeHex 4) |>.bind (expectChar '-') |>.bind (takeHex 12) with
  | some rest => dollarEnd rest
  | none => false

/-! ## ANSI control-sequence stripping (the `status == "success"` branch
of `_call_tool_impl`, microsoft-master/server.py)

The code applies two `re.sub` passes in order:
`re.sub(r'\x1b\[[0-9;]*m', '', output)` — "set graphic rendition"
sequences — followed by `re.sub(r'\x1b\[\?[0-9]+[hl]', '', output)` —
the cursor-visibility toggle.  Each pass scans left to right; a match of
the first pattern requires `ESC [`, a maximal run of `[0-9;]`, then `m`
(no backtracking can help since `m` is outside the class); a match of
the second requires `ESC [ ?`, a nonempty maximal digit run, then `h`
or `l`. -/

/-- The character class `[0-9;]` of the SGR pattern body. -/
def isSgrBody (c : Char) : Bool :=
  c.isDigit || c = ';'

/-- Attempt to match the tail `\[[0-9;]*m` of the SGR pattern against the
characters after an `ESC`; on success return the remainder after `m`. -/
def sgrSplit (cs : List Char) : Option (List Char) :=
  match cs with
  | '[' :: rest =>
    match rest.dropWhile isSgrBody with
    | 'm' :: rest2 => some rest2
    | _ => none
  | _ => none

/-- One `re.sub(pattern, '', _)` pass for a pattern of the form
`\x1b…`: scan left to right; at each `ESC` try `split` on the remaining
characters — on a match drop the matched span and continue after it,
otherwise keep the character and move one position right.  `fuel` is a
structural-recursion bound; the wrapper `reSub` supplies `l.length`,
which always suffices because a successful `split` consumes at least
the characters it returns. -/
def reSubF (split : List Char → Option (List Char)) :
    Nat → List Char → List Char
  | _, [] => []
  | 0, l => l
  | fuel + 1, c :: cs =>
    if c = '\x1b' then
      match split cs with
      | some rest2 => reSubF split fuel rest2
      | none => c :: reSubF split fuel cs
    else c :: reSubF split fuel cs

/-- One full `re.sub(pattern, '', l)` pass. -/
def reSub (split : List Char → Option (List Char)) (l : List Char) :
    List Char :=
  reSubF split l.length l

/-- `re.sub(r'\x1b\[[0-9;]*m', '', l)`. -/
def stripSgr (l : List Char) : List Char :=
  reSub sgrSplit l

/-- Attempt to match the tail `\[\?[0-9]+[hl]` of the cursor-visibility
pattern after an `ESC`; on success return the remainder. -/
def togSplit (cs : List Char) : Option (List Char) :=
  match cs with
  | '[' :: '?' :: rest =>
    match rest.takeWhile Char.isDigit, rest.dropWhile Char.isDigit with
    | [], _ => none
    | _ :: _, c :: rest2 => if c = 'h' || c = 'l' then some rest2 else none
    | _ :: _, [] => none
  | _ => none

/-- `re.sub(r'\x1b\[\?[0-9]+[hl]', '', l)`. -/
def stripTog (l : List Char) : List Char :=
  reSub togSplit l

/-- Both `re.sub` passes of the success branch, in source order. -/
def stripAnsiL (l : List Char) : List Char :=
  stripTog (stripSgr l)

/-- `re.sub(SGR, '', re.sub(TOGGLE, '', output))` lifted to `String`. -/
def stripAnsi (s : String) : String :=
  ⟨stripAnsiL s.data⟩

/-! ## Auth-state dispatch of the `run` tool
(`_call_tool_impl`, microsoft-master/server.py) -/

/-- The sign-in hint of the `auth_required` branch: the connection's
`expectedEmail` if truthy, else derived from its `tenant`, else empty. -/
def mkSignInHint (cfg : Conn) : String :=
  let ee := getStr cfg "expectedEmail"
  if ee ≠ "" then "\n>>> SIGN IN AS: " ++ ee ++ " <<<"
  else
    let tenant := getStr cfg "tenant"
    if tenant ≠ "" then "\n>>> Sign in with your @" ++ tenant ++ " account <<<"
    else ""

/-- The text rendered for a `status == "auth_required"` pool response.
`reg` is the `connections` mapping read back by `load_registry()`;
the record defaults to the empty dict when the name is absent. -/
def renderAuthRequired (reg : Registry) (connection module device_code : String) :
    String :=
  let cfg := (dget reg connection).getD []
  "**DEVICE CODE: " ++ device_code ++
    "**\nGo to: https://microsoft.com/devicelogin\n" ++ mkSignInHint cfg ++
    "\n\nConnection: " ++ connection ++ "\nModule: " ++ module ++
    "\n\nAfter authenticating, retry the command."

/-- The wrong-account warning prepended on an identity mismatch. -/
def mkWarning (expected got : String) : String :=
  "WARNING: Wrong account! Expected " ++ expected ++ ", got " ++ got ++ "\n\n"

/-- The text rendered for a `status == "success"` pool response:
strip the two control-sequence patterns, prepend the wrong-account
warning when the pool reported an `authenticated_as` identity that
differs case-insensitively from a truthy `expectedEmail`, then render
the `.strip()`ped text, or `"(no output)"` when it strips to empty. -/
def renderSuccess (reg : Registry) (connection out : String)
    (authenticated_as : Option String) : String :=
  let o₁ := stripAnsi out
  let o₂ :=
    match authenticated_as with
    | some a =>
      if a ≠ "" then
        let cfg := (dget reg connection).getD []
        let ee := getStr cfg "expectedEmail"
        if ee ≠ "" ∧ asciiLower ee ≠ asciiLower a then mkWarning ee a ++ o₁
        else o₁
      else o₁
    | none => o₁
  if pyStrip o₂ = "" then "(no output)" else pyStrip o₂

/-! ## Registry tool operations (microsoft-master/server.py)

Each operation is modelled as a pure function of its arguments, the
registry read by `load_registry()`, and the success of the
`save_registry` write (`saveOk`).  The second component of the result
is the registry value passed to `save_registry`, or `none` when no
write was attempted. -/

/-- Arguments of `connection_add`; a field is `none` when the key is
absent from the MCP arguments object. -/
structure AddArgs where
  name : Option String := none
  tenant : Option String := none
  appId : Option String := none
  description : Option String := none
  mcps : Option (List String) := none

/-- Truthiness of `args.get(f)` for each required field of
`connection_add`, in the order of the source list
`["name", "tenant", "appId", "description", "mcps"]`. -/
def AddArgs.truthy (a : AddArgs) : String → Bool
  | "name" => truthyS a.name
  | "tenant" => truthyS a.tenant
  | "appId" => truthyS a.appId
  | "description" => truthyS a.description
  | "mcps" => truthyL a.mcps
  | _ => false

/-- `missing = [f for f in [...] if not args.get(f)]`. -/
def AddArgs.missing (a : AddArgs) : List String :=
  (["name", "tenant", "appId", "description", "mcps"].filter
    (fun f => ! a.truthy f))

/-- The distinct structured results of `_connection_add` (each is the
JSON object the code dumps into the tool response). -/
inductive AddResult where
  | errMissing (fields : List String)
  | errInvalidAppId (appId : String)
  | errExists (name : String)
  | errSaveFailed
  | ok (name : String)
deriving DecidableEq, Repr

/-- The record stored by `_connection_add`: exactly the four keys, in
insertion order, with string values `.strip()`ped. -/
def newRecord (a : AddArgs) : Conn :=
  [("appId", .str (pyStrip (a.appId.getD ""))),
   ("tenant", .str (pyStrip (a.tenant.getD ""))),
   ("description", .str (pyStrip (a.description.getD ""))),
   ("mcps", .strs (a.mcps.getD []))]

/-- `_connection_add(args)` over registry `reg`. -/
def connection_add (a : AddArgs) (reg : Registry) (saveOk : Bool) :
    AddResult × Option Registry :=
  let name := pyStrip (a.name.getD "")
  if a.missing ≠ [] then (.errMissing a.missing, none)
  else if ¬ is_valid_guid (pyStrip (a.appId.getD "")) then
    (.errInvalidAppId (pyStrip (a.appId.getD "")), none)
  else if (dget reg name).isSome then (.errExists name, none)
  else
    let reg₂ := dset reg name (newRecord a)
    if saveOk then (.ok name, some reg₂) else (.errSaveFailed, some reg₂)

/-- The distinct structured results of `_connection_remove`. -/
inductive RemoveResult where
  | errNameRequired
  | errNotFound (name : String) (available : List String)
  | errSaveFailed
  | ok (name : String) (removed : Conn)
deriving DecidableEq, Repr

/-- `_connection_remove(args)` over registry `reg`. -/
def connection_remove (name? : Option String) (reg : Registry)
    (saveOk : Bool) : RemoveResult × Option Registry :=
  let name := pyStrip (name?.getD "")
  if name = "" then (.errNameRequired, none)
  else
    match dget reg name with
    | none => (.errNotFound name (dkeys reg), none)
    | some c =>
      let reg₂ := derase reg name
      if saveOk then (.ok name c, some reg₂) else (.errSaveFailed, some reg₂)

/-- Arguments of `connection_update`. -/
structure UpdateArgs where
  name : Option String := none
  appId : Option String := none
  tenant : Option String := none
  description : Option String := none
  mcps : Option (List String) := none

/-- The `updated` list accumulated by `_connection_update`: the truthy
fields in the source's iteration order
(`appId`, `tenant`, `description`, then `mcps`). -/
def UpdateArgs.supplied (a : UpdateArgs) : List String :=
  (if truthyS a.appId then ["appId"] else []) ++
  (if truthyS a.tenant then ["tenant"] else []) ++
  (if truthyS a.description then ["description"] else []) ++
  (if truthyL a.mcps then ["mcps"] else [])

/-- The record after the field loop of `_connection_update`: each
truthy string field assigned its `.strip()`ped value, then `mcps`
assigned unstripped. -/
def updatedConn (a : UpdateArgs) (conn : Conn) : Conn :=
  let c₁ := if truthyS a.appId then
      dset conn "appId" (.str (pyStrip (a.appId.getD ""))) else conn
  let c₂ := if truthyS a.tenant then
      dset c₁ "tenant" (.str (pyStrip (a.tenant.getD ""))) else c₁
  let c₃ := if truthyS a.description then
      dset c₂ "description" (.str (pyStrip (a.description.getD ""))) else c₂
  if truthyL a.mcps then dset c₃ "mcps" (.strs (a.mcps.getD [])) else c₃

/-- The distinct structured results of `_connection_update`. -/
inductive UpdateResult where
  | errNameRequired
  | errNotFound (name : String)
  | errInvalidAppId (appId : String)
  | noChanges
  | errSaveFailed
  | ok (updated : List String) (conn : Conn)
deriving DecidableEq, Repr

/-- `_connection_update(args)` over registry `reg`.  The `appId` field
is the first loop iteration, so its validation error (checked against
the raw, unstripped argument) occurs before any field is written. -/
def connection_update (a : UpdateArgs) (reg : Registry) (saveOk : Bool) :
    UpdateResult × Option Registry :=
  let name := pyStrip (a.name.getD "")
  if name = "" then (.errNameRequired, none)
  else
    match dget reg name with
    | none => (.errNotFound name, none)
    | some conn =>
      if truthyS a.appId ∧ ¬ is_valid_guid (a.appId.getD "") then
        (.errInvalidAppId (a.appId.getD ""), none)
      else
        let conn₂ := updatedConn a conn
        if a.supplied = [] then (.noChanges, none)
        else
          let reg₂ := dset reg name conn₂
          if saveOk then (.ok a.supplied conn₂, some reg₂)
          else (.errSaveFailed, some reg₂)

/-! ## Pool clients: transport error normalization -/

/-- A JSON object, as returned by `resp.json()`. -/
abbrev JObj := List (String × JVal)

/-- The possible outcomes of the `httpx` request in `call_pool`
(microsoft-master/server.py): a parsed JSON body, an
`httpx.TimeoutException`, or any other exception (connection refused,
DNS failure, JSON decode error, …) carrying its `str(e)` text. -/
inductive HttpxOutcome where
  | ok (resp : JObj)
  | timeout (msg : String)
  | exc (msg : String)
deriving DecidableEq, Repr

/-- `call_pool` (microsoft-master/server.py): transport failures are
normalized into `{"status": "error", "error": …}`. -/
def call_pool : HttpxOutcome → JObj
  | .ok r => r
  | .timeout _ => [("status", .str "error"), ("error", .str "Request timed out")]
  | .exc e => [("status", .str "error"), ("error", .str e)]

/-- The possible outcomes of the `requests` request in `api_call`
(pwsh-manager/mcp_server.py).  `requests.exceptions.ConnectionError`
is caught first (note `ConnectTimeout` is a `ConnectionError` subclass
and lands there); a read timeout or any other exception falls through
to the generic handler with its `str(e)` text. -/
inductive ReqOutcome where
  | ok (resp : JObj)
  | connectionError (msg : String)
  | timeout (msg : String)
  | exc (msg : String)
deriving DecidableEq, Repr

/-- `api_call` (pwsh-manager/mcp_server.py): transport failures are
normalized into `{"success": False, "error": …}`. -/
def api_call : ReqOutcome → JObj
  | .ok r => r
  | .connectionError _ =>
    [("success", .bool false),
     ("error", .str "Cannot connect to pwsh-manager. Is Docker running?")]
  | .timeout e => [("success", .bool false), ("error", .str e)]
  | .exc e => [("success", .bool false), ("error", .str e)]

/-! ## The pwsh-manager adapter (pwsh-manager/mcp_server.py)

The module constant `MCP_NAME = "pwsh-manager"` is the adapter id; the
definitions take it as the parameter `mcp` so the per-adapter filter
can be stated for every adapter id. -/

/-- `MCP_NAME`. -/
def MCP_NAME : String := "pwsh-manager"

/-- `get_connection(name)`: look up by exact name, visible only when
`mcp` is in the record's `mcps` list.  (An empty record is falsy in
Python and also yields `None`; its `mcps` list is empty either way.) -/
def get_connection (reg : Registry) (mcp name : String) : Option Conn :=
  match dget reg name with
  | some c => if mcp ∈ getStrs c "mcps" then some c else none
  | none => none

/-- `list_available_connections()`: the names visible to this adapter,
in registry order. -/
def list_available_connections (reg : Registry) (mcp : String) :
    List String :=
  (reg.filter (fun p => mcp ∈ getStrs p.2 "mcps")).map Prod.fst

/-- `SHAREPOINT_TENANTS` followed by `tenant_domain.split(".")[0]`. -/
def get_sharepoint_tenant (tenant_domain : String) : String :=
  if tenant_domain = "forit.io" then "foritllc"
  else ⟨tenant_domain.data.takeWhile (· ≠ '.')⟩

/-- One HTTP call recorded against the session pool: the endpoint and,
for POSTs, the JSON body (an ordered list of string fields). -/
structure PoolCall where
  endpoint : String
  body : Option (List (String × String))
deriving DecidableEq, Repr

/-- One session row of the `/sessions` response. -/
structure Session where
  connected : Bool
  auth_pending : Bool
  tenant : String
  module : String
  last_used : String
deriving DecidableEq, Repr

/-- The fields of a session-manager response that the adapter reads.
Absent keys are `none` / `false` / `[]` (Python `result.get(...)`). -/
structure PoolResp where
  success : Bool := false
  device_code : Option String := none
  auth_url : Option String := none
  auth_pending : Bool := false
  connected : Bool := false
  error : Option String := none
  result : Option String := none
  sessions : List Session := []
deriving DecidableEq, Repr

/-- The structured payloads produced by `_handle_call_tool_impl`, one
constructor per exit path, carrying the data the code puts in the
response text (constructors whose source dict is all literal strings
carry nothing). -/
inductive PwshOut where
  | noConnectionsConfigured
  | connectionList (rows : List (String × String × String))
  | noSessions
  | sessionsReport (rows : List Session)
  | connRequired (available : List String)
  | connNotFound (message : String) (available : List String)
  | loginDevice (text : String)
  | loginOk (text : String)
  | loginFailed (message : String)
  | statusReport (text : String)
  | commandRequired
  | runOutput (text : String)
  | runError (message : String)
  | confirmationRequired
  | disconnected (text : String)
  | disconnectError (message : String)
  | unknownTool (name : String)
deriving DecidableEq, Repr

/-- `isError` as set by `_handle_call_tool_impl` on each exit path. -/
def PwshOut.isError : PwshOut → Bool
  | .connRequired _ => true
  | .connNotFound _ _ => true
  | .loginFailed _ => true
  | .commandRequired => true
  | .runError _ => true
  | .confirmationRequired => true
  | .disconnectError _ => true
  | .unknownTool _ => true
  | _ => false

/-- Arguments of a pwsh-manager tool call. -/
structure PwshArgs where
  connectionName : Option String := none
  module : Option String := none
  command : Option String := none
  account : Option String := none
  confirmation : Option String := none

/-- `err_msg(name)`: the single not-found message of
`_handle_call_tool_impl`, used identically whether the name is absent
from the registry or present but not authorized for this adapter. -/
def notFoundMessage (mcp name : String) : String :=
  "Connection '" ++ name ++ "' not found or not configured for " ++ mcp ++
    " MCP"

/-- The login-success device-code text. -/
def loginDeviceText (dc auth_url conn_name tenant module : String)
    (auth_pending : Bool) : String :=
  "**DEVICE CODE: " ++ dc ++ "**\nGo to: " ++ auth_url ++ "\n\n" ++
    "Connection: " ++ conn_name ++ "\nTenant: " ++ tenant ++ "\nModule: " ++
    module ++ "\n\n" ++
    (if auth_pending then
      "Authentication pending. Complete device code flow, then check status."
    else "Connected")

/-- `_handle_call_tool_impl(name, arguments)`.  `pool` is the session
manager: it maps each issued `api_call` to its (already normalized)
response.  The second component is the list of pool calls issued, in
order. -/
def handle_call_tool_impl (reg : Registry) (mcp : String)
    (pool : PoolCall → PoolResp) (tool : String) (args : PwshArgs) :
    PwshOut × List PoolCall :=
  if tool = "pwsh_list_connections" then
    let available := reg.filter (fun p => mcp ∈ getStrs p.2 "mcps")
    if available = [] then (.noConnectionsConfigured, [])
    else
      (.connectionList (available.map
        (fun p => (p.1, getStr p.2 "tenant", getStr p.2 "description"))), [])
  else if tool = "pwsh_sessions" then
    let call : PoolCall := ⟨"/sessions", none⟩
    let r := pool call
    if r.sessions = [] then (.noSessions, [call])
    else (.sessionsReport r.sessions, [call])
  else
    let conn_name := args.connectionName.getD ""
    let module := args.module.getD "exo"
    if conn_name = "" then
      (.connRequired (list_available_connections reg mcp), [])
    else
      match get_connection reg mcp conn_name with
      | none =>
        (.connNotFound (notFoundMessage mcp conn_name)
          (list_available_connections reg mcp), [])
      | some conn =>
        let tenant := getStr conn "tenant"
        let base := [("tenant", tenant), ("module", module)] ++
          (if module = "pnp" then
            [("sharepoint_tenant", get_sharepoint_tenant tenant)] else [])
        if tool = "pwsh_login" then
          let account := args.account.getD "1"
          let call : PoolCall := ⟨"/login", some (base ++ [("account", account)])⟩
          let r := pool call
          if truthyS r.device_code then
            (.loginDevice (loginDeviceText (r.device_code.getD "")
              (r.auth_url.getD "https://microsoft.com/devicelogin") conn_name
              tenant module r.auth_pending), [call])
          else if r.success then
            (.loginOk ("Connected to " ++ conn_name ++ " (" ++ tenant ++
              ") - " ++ module), [call])
          else
            (.loginFailed ("Login failed: " ++
              (r.error.getD (r.result.getD "Unknown error"))), [call])
        else if tool = "pwsh_status" then
          let call : PoolCall := ⟨"/status", some base⟩
          let r := pool call
          if r.connected then
            (.statusReport ("✓ " ++ conn_name ++ " (" ++ tenant ++ ") - " ++
              module ++ ": Connected"), [call])
          else if r.auth_pending then
            (.statusReport ("⏳ " ++ conn_name ++ " (" ++ tenant ++ ") - " ++
              module ++
              ": Authentication pending (complete device code flow)"), [call])
          else
            (.statusReport ("✗ " ++ conn_name ++ " (" ++ tenant ++ ") - " ++
              module ++ ": Not connected"), [call])
        else if tool = "pwsh_run" then
          let command := args.command.getD ""
          if command = "" then (.commandRequired, [])
          else
            let call : PoolCall := ⟨"/run", some (base ++ [("command", command)])⟩
            let r := pool call
            if r.success then (.runOutput (r.result.getD "OK"), [call])
            else
              (.runError ("Error: " ++
                (r.error.getD (r.result.getD "Command failed"))), [call])
        else if tool = "pwsh_disconnect" then
          let confirmation := args.confirmation.getD ""
          if confirmation ≠ "DISCONNECT" then (.confirmationRequired, [])
          else
            let call : PoolCall := ⟨"/disconnect", some base⟩
            let r := pool call
            if r.success then
              (.disconnected ("Disconnected " ++ conn_name ++ " (" ++ tenant ++
                ") - " ++ module), [call])
            else
              (.disconnectError ("Error: " ++ (r.error.getD "Disconnect failed")),
                [call])
        else (.unknownTool tool, [])

/-- Substring containment, at the `String` level. -/
def containsSub (hay needle : String) : Prop :=
  ∃ a b, hay = a ++ (needle ++ b)

/-- The `expectedEmail` the dispatcher reads:
`registry.get("connections", {}).get(connection, {}).get("expectedEmail", "")`. -/
def expectedEmailOf (reg : Registry) (connection : String) : String :=
  getStr ((dget reg connection).getD []) "expectedEmail"

/-- The `tenant` the dispatcher reads from the resolved record. -/
def tenantOf (reg : Registry) (connection : String) : String :=
  getStr ((dget reg connection).getD []) "tenant"

/-- The single normalized error shape of the microsoft-master client. -/
def statusErrorShape (o : JObj) : Prop :=
  ∃ e, o = [("status", .str "error"), ("error", .str e)]

/-- The single normalized error shape of the pwsh-manager client. -/
def successFalseShape (o : JObj) : Prop :=
  ∃ e, o = [("success", .bool false), ("error", .str e)]

/-! ## Laws of the dictionary operations -/

@[simp] theorem dget_nil {α : Type} (k : String) :
    dget ([] : List (String × α)) k = none := rfl

theorem dget_cons {α : Type} (k₀ k : String) (v₀ : α) (m : List (String × α)) :
    dget ((k₀, v₀) :: m) k = if k₀ = k then some v₀ else dget m k := rfl

theorem dset_cons {α : Type} (k₀ k : String) (v₀ v : α) (m : List (String × α)) :
    dset ((k₀, v₀) :: m) k v =
      if k₀ = k then (k, v) :: m else (k₀, v₀) :: dset m k v := rfl

theorem derase_cons {α : Type} (k₀ k : String) (v₀ : α) (m : List (String × α)) :
    derase ((k₀, v₀) :: m) k =
      if k₀ = k then m else (k₀, v₀) :: derase m k := rfl

@[simp] theorem dkeys_nil {α : Type} : dkeys ([] : List (String × α)) = [] := rfl

@[simp] theorem dkeys_cons {α : Type} (p : String × α) (m : List (String × α)) :
    dkeys (p :: m) = p.1 :: dkeys m := rfl

theorem dget_dset_self {α : Type} (m : List (String × α)) (k : String) (v : α) :
    dget (dset m k v) k = some v := by
  induction m with
  | nil => simp [dget, dset]
  | cons p rest ih =>
    obtain ⟨k', v'⟩ := p
    by_cases h : k' = k <;> simp [dget_cons, dset_cons, h, ih]

theorem dget_dset_ne {α : Type} (m : List (String × α)) (k k' : String) (v : α)
    (h : k' ≠ k) : dget (dset m k v) k' = dget m k' := by
  have h' : ¬ k = k' := fun hh => h hh.symm
  induction m with
  | nil => simp [dget, dset, h']
  | cons p rest ih =>
    obtain ⟨k₀, v₀⟩ := p
    by_cases h0 : k₀ = k
    · subst h0
      simp [dget_cons, dset_cons, h']
    · simp only [dset_cons, if_neg h0, dget_cons, ih]

theorem dget_derase_ne {α : Type} (m : List (String × α)) (k k' : String)
    (h : k' ≠ k) : dget (derase m k) k' = dget m k' := by
  have h' : ¬ k = k' := fun hh => h hh.symm
  induction m with
  | nil => simp [derase]
  | cons p rest ih =>
    obtain ⟨k₀, v₀⟩ := p
    by_cases h0 : k₀ = k
    · subst h0
      simp [dget_cons, derase_cons, h']
    · simp only [derase_cons, if_neg h0, dget_cons, ih]

theorem dget_none_of_not_mem_dkeys {α : Type} (m : List (String × α))
    (k : String) (h : k ∉ dkeys m) : dget m k = none := by
  induction m with
  | nil => rfl
  | cons p rest ih =>
    obtain ⟨k₀, v₀⟩ := p
    simp only [dkeys_cons, List.mem_cons, not_or] at h
    have h1 : ¬ k₀ = k := fun hh => h.1 hh.symm
    simp only [dget_cons, if_neg h1]
    exact ih h.2

theorem dget_derase_self {α : Type} (m : List (String × α)) (k : String)
    (hnd : (dkeys m).Nodup) : dget (derase m k) k = none := by
  induction m with
  | nil => rfl
  | cons p rest ih =>
    obtain ⟨k₀, v₀⟩ := p
    simp only [dkeys_cons, List.nodup_cons] at hnd
    by_cases h0 : k₀ = k
    · subst h0
      simp only [derase_cons, if_pos rfl]
      exact dget_none_of_not_mem_dkeys rest k₀ hnd.1
    · simp only [derase_cons, if_neg h0, dget_cons, if_neg h0]
      exact ih hnd.2

theorem dkeys_dset {α : Type} (m : List (String × α)) (k : String) (v : α) :
    dkeys (dset m k v) = if k ∈ dkeys m then dkeys m else dkeys m ++ [k] := by
  induction m with
  | nil => simp [dset]
  | cons p rest ih =>
    obtain ⟨k₀, v₀⟩ := p
    by_cases h0 : k₀ = k
    · subst h0
      simp [dset_cons]
    · have h0' : ¬ k = k₀ := fun hh => h0 hh.symm
      simp only [dset_cons, if_neg h0, dkeys_cons, ih, List.mem_cons, h0',
        false_or]
      by_cases hm : k ∈ dkeys rest
      · simp [hm]
      · simp [hm]

/-! ## Structural properties of the control-sequence stripping -/

theorem sgrSplit_length {cs r : List Char} (h : sgrSplit cs = some r) :
    r.length < cs.length := by
  match cs with
  | [] => simp [sgrSplit] at h
  | c :: rest =>
    by_cases hc : c = '['
    · subst hc
      simp only [sgrSplit] at h
      have hd : (rest.dropWhile isSgrBody).length ≤ rest.length :=
        (List.dropWhile_sublist isSgrBody).length_le
      revert h hd
      cases hdw : rest.dropWhile isSgrBody with
      | nil => intro h; simp at h
      | cons d l =>
        intro h hd
        by_cases hdm : d = 'm'
        · subst hdm
          simp only [Option.some.injEq] at h
          subst h
          simp only [List.length_cons] at hd ⊢
          omega
        · simp [hdm] at h
    · simp [sgrSplit, hc] at h

/-- The fuel argument is irrelevant as long as it bounds the length. -/
theorem reSubF_congr (split : List Char → Option (List Char))
    (hs : ∀ cs r, split cs = some r → r.length ≤ cs.length) :
    ∀ f₁ f₂ l, l.length ≤ f₁ → l.length ≤ f₂ →
      reSubF split f₁ l = reSubF split f₂ l := by
  intro f₁
  induction f₁ with
  | zero =>
    intro f₂ l h₁ _
    have : l = [] := List.length_eq_zero.mp (Nat.le_zero.mp h₁)
    subst this
    cases f₂ <;> rfl
  | succ f₁ ih =>
    intro f₂ l h₁ h₂
    match l with
    | [] => cases f₂ <;> rfl
    | c :: cs =>
      match f₂ with
      | 0 => simp at h₂
      | f₂ + 1 =>
        simp only [List.length_cons, Nat.add_le_add_iff_right] at h₁ h₂
        by_cases hc : c = '\x1b'
        · simp only [reSubF, if_pos hc]
          cases hsp : split cs with
          | some r =>
            have hr := hs cs r hsp
            exact ih f₂ r (hr.trans h₁) (hr.trans h₂)
          | none =>
            exact congrArg (c :: ·) (ih f₂ cs h₁ h₂)
        · simp only [reSubF, if_neg hc]
          exact congrArg (c :: ·) (ih f₂ cs h₁ h₂)

theorem reSub_cons_nonesc (split : List Char → Option (List Char))
    (c : Char) (cs : List Char) (h : ¬ c = '\x1b') :
    reSub split (c :: cs) = c :: reSub split cs := by
  show reSubF split (cs.length + 1) (c :: cs) = _
  simp only [reSubF, if_neg h]
  rfl

theorem reSub_cons_esc_match (split : List Char → Option (List Char))
    (hs : ∀ cs r, split cs = some r → r.length ≤ cs.length)
    (cs r : List Char) (h : split cs = some r) :
    reSub split ('\x1b' :: cs) = reSub split r := by
  show reSubF split (cs.length + 1) ('\x1b' :: cs) = _
  simp only [reSubF, if_pos rfl, h]
  exact reSubF_congr split hs cs.length r.length r (hs cs r h) le_rfl

theorem reSub_cons_esc_nomatch (split : List Char → Option (List Char))
    (cs : List Char) (h : split cs = none) :
    reSub split ('\x1b' :: cs) = '\x1b' :: reSub split cs := by
  show reSubF split (cs.length + 1) ('\x1b' :: cs) = _
  simp only [reSubF, if_pos rfl, h]
  rfl

theorem togSplit_length {cs r : List Char} (h : togSplit cs = some r) :
    r.length < cs.length := by
  match cs with
  | [] => simp [togSplit] at h
  | [c] =>
    by_cases hc : c = '[' <;> simp [togSplit, hc] at h
  | c :: d :: rest =>
    by_cases hc : c = '['
    · subst hc
      by_cases hd : d = '?'
      · subst hd
        simp only [togSplit] at h
        have hlen : (rest.dropWhile Char.isDigit).length ≤ rest.length :=
          (List.dropWhile_sublist Char.isDigit).length_le
        revert h hlen
        cases htw : rest.takeWhile Char.isDigit with
        | nil => intro h; simp at h
        | cons t ts =>
          cases hdw : rest.dropWhile Char.isDigit with
          | nil => intro h; simp at h
          | cons e l =>
            intro h hlen
            by_cases he : e = 'h' || e = 'l'
            · simp only [he, if_true, Option.some.injEq] at h
              subst h
              simp only [List.length_cons] at hlen ⊢
              omega
            · simp [he] at h
      · simp [togSplit, hd] at h
    · simp [togSplit, hc] at h

theorem reSub_of_noEsc (split : List Char → Option (List Char))
    (l : List Char) (h : '\x1b' ∉ l) : reSub split l = l := by
  induction l with
  | nil => rfl
  | cons c cs ih =>
    simp only [List.mem_cons, not_or] at h
    have hc : ¬ c = '\x1b' := fun hh => h.1 hh.symm
    rw [reSub_cons_nonesc split c cs hc, ih h.2]

theorem reSub_append_of_noEsc (split : List Char → Option (List Char))
    (a l : List Char) (h : '\x1b' ∉ a) :
    reSub split (a ++ l) = a ++ reSub split l := by
  induction a with
  | nil => rfl
  | cons c cs ih =>
    simp only [List.mem_cons, not_or] at h
    have hc : ¬ c = '\x1b' := fun hh => h.1 hh.symm
    rw [List.cons_append, reSub_cons_nonesc split c _ hc, ih h.2,
      List.cons_append]

theorem sgrSplit_le {cs r : List Char} (h : sgrSplit cs = some r) :
    r.length ≤ cs.length :=
  Nat.le_of_lt (sgrSplit_length h)

theorem togSplit_le {cs r : List Char} (h : togSplit cs = some r) :
    r.length ≤ cs.length :=
  Nat.le_of_lt (togSplit_length h)

/-- `\[[0-9;]*m` matches greedily: a full class run followed by `m`. -/
theorem sgrSplit_match (body rest : List Char)
    (hb : ∀ c ∈ body, isSgrBody c = true) :
    sgrSplit ('[' :: (body ++ 'm' :: rest)) = some rest := by
  have h1 : body.dropWhile isSgrBody = [] := List.dropWhile_eq_nil_iff.mpr hb
  have h2 : isSgrBody 'm' = false := by decide
  simp [sgrSplit, List.dropWhile_append, h1, List.dropWhile_cons, h2]

/-- The SGR pattern does not match at an `ESC [ ?`. -/
theorem sgrSplit_question (rest : List Char) :
    sgrSplit ('[' :: '?' :: rest) = none := by
  have h2 : isSgrBody '?' = false := by decide
  simp [sgrSplit, List.dropWhile_cons, h2]

/-- `\[\?[0-9]+[hl]` matches greedily: `[ ?`, a nonempty digit run,
then `h` or `l`. -/
theorem togSplit_match (ds rest : List Char) (c : Char)
    (hne : ds ≠ []) (hd : ∀ d ∈ ds, d.isDigit = true)
    (hc : c = 'h' ∨ c = 'l') :
    togSplit ('[' :: '?' :: (ds ++ c :: rest)) = some rest := by
  have hcd : c.isDigit = false := by
    rcases hc with h | h <;> subst h <;> decide
  have h1 : ds.takeWhile Char.isDigit = ds := List.takeWhile_eq_self_iff.mpr hd
  have h2 : ds.dropWhile Char.isDigit = [] := List.dropWhile_eq_nil_iff.mpr hd
  have htake : (ds ++ c :: rest).takeWhile Char.isDigit = ds := by
    simp [List.takeWhile_append, h1, List.takeWhile_cons, hcd]
  have hdrop : (ds ++ c :: rest).dropWhile Char.isDigit = c :: rest := by
    simp [List.dropWhile_append, h2, List.dropWhile_cons, hcd]
  have hc' : (c = 'h' || c = 'l') = true := by
    rcases hc with h | h <;> subst h <;> simp
  cases ds with
  | nil => exact absurd rfl hne
  | cons d ds' =>
    simp only [togSplit, htake, hdrop]
    simp [hc']

/-- A character list free of `ESC` passes both passes unchanged. -/
theorem stripAnsiL_of_noEsc (l : List Char) (h : '\x1b' ∉ l) :
    stripAnsiL l = l := by
  unfold stripAnsiL stripSgr stripTog
  rw [reSub_of_noEsc sgrSplit l h, reSub_of_noEsc togSplit l h]

/-- An SGR sequence `ESC [ body m` after an `ESC`-free prefix is removed
whole, and stripping continues after it. -/
theorem stripAnsiL_sgr (a body rest : List Char) (ha : '\x1b' ∉ a)
    (hb : ∀ c ∈ body, isSgrBody c = true) :
    stripAnsiL (a ++ '\x1b' :: '[' :: (body ++ 'm' :: rest)) =
      a ++ stripAnsiL rest := by
  unfold stripAnsiL stripSgr stripTog
  rw [reSub_append_of_noEsc sgrSplit a _ ha,
    reSub_cons_esc_match sgrSplit (fun _ _ => sgrSplit_le)
      _ rest (sgrSplit_match body rest hb),
    reSub_append_of_noEsc togSplit a _ ha]

/-- A cursor-visibility toggle `ESC [ ? digits (h|l)` after an
`ESC`-free prefix is removed whole (it passes the SGR pass untouched
and is removed by the second pass). -/
theorem stripAnsiL_tog (a ds rest : List Char) (c : Char)
    (ha : '\x1b' ∉ a) (hne : ds ≠ []) (hd : ∀ d ∈ ds, d.isDigit = true)
    (hc : c = 'h' ∨ c = 'l') :
    stripAnsiL (a ++ '\x1b' :: '[' :: '?' :: (ds ++ c :: rest)) =
      a ++ stripAnsiL rest := by
  have hdne : ∀ d ∈ ds, d ≠ '\x1b' := by
    intro d hdm he
    have hdd := hd d hdm
    rw [he] at hdd
    exact absurd hdd (by decide)
  have hcne : ¬ ('\x1b' = c) := by
    rcases hc with h | h <;> subst h <;> decide
  have hp : '\x1b' ∉ ('[' :: '?' :: (ds ++ [c])) := by
    intro hm
    rcases List.mem_cons.mp hm with h1 | hm
    · exact absurd h1 (by decide)
    rcases List.mem_cons.mp hm with h1 | hm
    · exact absurd h1 (by decide)
    rcases List.mem_append.mp hm with hm | hm
    · exact hdne _ hm rfl
    · exact hcne (List.mem_singleton.mp hm)
  unfold stripAnsiL stripSgr stripTog
  rw [reSub_append_of_noEsc sgrSplit a _ ha,
    reSub_cons_esc_nomatch sgrSplit _ (sgrSplit_question (ds ++ c :: rest))]
  have h1 : ('[' :: '?' :: (ds ++ c :: rest)) =
      ('[' :: '?' :: (ds ++ [c])) ++ rest := by simp
  rw [h1, reSub_append_of_noEsc sgrSplit _ rest hp]
  have h2 : ('[' :: '?' :: (ds ++ [c])) ++ reSub sgrSplit rest =
      '[' :: '?' :: (ds ++ c :: reSub sgrSplit rest) := by simp
  rw [h2, reSub_append_of_noEsc togSplit a _ ha,
    reSub_cons_esc_match togSplit (fun _ _ => togSplit_le) _ _
      (togSplit_match ds (reSub sgrSplit rest) c hne hd hc)]

/-! ## `str.strip` preserves a leading segment that is followed by
some non-whitespace character -/

theorem pyStripL_keepsHead (hd : Char) (tl suf : List Char)
    (hh : isPyWs hd = false) (h2 : ∃ x ∈ suf, isPyWs x = false) :
    (hd :: tl) <+: pyStripL ((hd :: tl) ++ suf) := by
  have hstep1 : (((hd :: tl) ++ suf)).dropWhile isPyWs =
      (hd :: tl) ++ suf := by
    simp [List.dropWhile_cons, hh]
  have hne : ¬ (suf.reverse.dropWhile isPyWs).isEmpty = true := by
    rw [List.isEmpty_iff, List.dropWhile_eq_nil_iff]
    push_neg
    obtain ⟨x, hx, hxw⟩ := h2
    exact ⟨x, List.mem_reverse.mpr hx, by simp [hxw]⟩
  unfold pyStripL
  rw [hstep1, List.reverse_append, List.dropWhile_append, if_neg hne,
    List.reverse_append, List.reverse_reverse]
  exact ⟨(suf.reverse.dropWhile isPyWs).reverse, rfl⟩

/-! ## Claims C1–C3: the success and auth_required renderings -/

/-- **C1.** On a `status == "success"` pool response the dispatcher's
control-sequence stripping (i) is the identity on output with no `ESC`
byte, (ii) removes a "set graphic rendition" sequence
`ESC [ [0-9;]* m` whole, stripping the rest of the output around it
and touching no other bytes, (iii) likewise removes a
cursor-visibility toggle `ESC [ ? [0-9]+ (h|l)`; and the rendered
text is the stripped-then-`strip()`ed output, is `"(no output)"`
exactly when the stripped output is empty or all-whitespace, and is
never the empty string. -/
theorem c1_success_stripping_and_no_output_marker :
    (∀ l : List Char, '\x1b' ∉ l → stripAnsiL l = l) ∧
    (∀ a body rest : List Char, '\x1b' ∉ a →
      (∀ c ∈ body, isSgrBody c = true) →
      stripAnsiL (a ++ '\x1b' :: '[' :: (body ++ 'm' :: rest)) =
        a ++ stripAnsiL rest) ∧
    (∀ (a ds rest : List Char) (c : Char), '\x1b' ∉ a → ds ≠ [] →
      (∀ d ∈ ds, d.isDigit = true) → (c = 'h' ∨ c = 'l') →
      stripAnsiL (a ++ '\x1b' :: '[' :: '?' :: (ds ++ c :: rest)) =
        a ++ stripAnsiL rest) ∧
    (∀ (reg : Registry) (conn out : String),
      (pyStrip (stripAnsi out) = "" →
        renderSuccess reg conn out none = "(no output)") ∧
      (pyStrip (stripAnsi out) ≠ "" →
        renderSuccess reg conn out none = pyStrip (stripAnsi out))) ∧
    (∀ (reg : Registry) (conn out : String) (auth : Option String),
      renderSuccess reg conn out auth ≠ "") := by
  refine ⟨stripAnsiL_of_noEsc, stripAnsiL_sgr, stripAnsiL_tog, ?_, ?_⟩
  · intro reg conn out
    constructor
    · intro h
      simp [renderSuccess, h]
    · intro h
      simp [renderSuccess, h]
  · intro reg conn out auth
    simp only [renderSuccess]
    split
    · decide
    · next hne => exact hne

/-- **C1 witness.** The stripping equations at concrete inputs, and the
spec's example: all-whitespace output renders as the no-output
marker. -/
theorem c1_witness :
    stripAnsiL ("A".data ++ '\x1b' :: '[' :: ("32".data ++ 'm' :: "OK".data)) =
      "A".data ++ stripAnsiL "OK".data ∧
    stripAnsiL ([] ++ '\x1b' :: '[' :: '?' :: ("25".data ++ 'l' :: "X".data)) =
      [] ++ stripAnsiL "X".data ∧
    renderSuccess [] "c" "   " none = "(no output)" :=
  ⟨c1_success_stripping_and_no_output_marker.2.1 "A".data "32".data "OK".data
      (by decide) (by decide),
   c1_success_stripping_and_no_output_marker.2.2.1 [] "25".data "X".data 'l'
      (by decide) (by decide) (by decide) (Or.inr rfl),
   (c1_success_stripping_and_no_output_marker.2.2.2.1 [] "c" "   ").1
      (by decide)⟩

/-- **C2.** On a `status == "success"` response carrying a truthy
`authenticated_as` identity: when the connection's `expectedEmail` is
truthy and differs case-insensitively, the rendering is the stripped
output with the wrong-account warning prepended (then `strip()`ed),
so it starts with the warning text — the call still returns a normal
text rendering (it is never turned into a failure); when the
identities agree case-insensitively or `expectedEmail` is
absent/empty, the rendering is exactly the no-identity rendering (no
warning added). -/
theorem c2_identity_mismatch_warning (reg : Registry)
    (connection out a : String) :
    (a ≠ "" → expectedEmailOf reg connection ≠ "" →
      asciiLower (expectedEmailOf reg connection) ≠ asciiLower a →
      renderSuccess reg connection out (some a) =
        pyStrip (mkWarning (expectedEmailOf reg connection) a ++
          stripAnsi out) ∧
      "WARNING: Wrong account! Expected ".data <+:
        (renderSuccess reg connection out (some a)).data) ∧
    ((expectedEmailOf reg connection = "" ∨
      asciiLower (expectedEmailOf reg connection) = asciiLower a) →
      renderSuccess reg connection out (some a) =
        renderSuccess reg connection out none) := by
  constructor
  · intro h1 h2 h3
    have hdata : (mkWarning (expectedEmailOf reg connection) a ++
        stripAnsi out).data =
        ("WARNING: Wrong account! Expected ").data ++
          ((expectedEmailOf reg connection).data ++ (", got ".data ++
            (a.data ++ ("\n\n".data ++ (stripAnsi out).data)))) := by
      simp [mkWarning, String.data_append]
    have hW : "WARNING: Wrong account! Expected ".data =
        'W' :: "ARNING: Wrong account! Expected ".data := by decide
    have hcomma : ∃ x ∈ (expectedEmailOf reg connection).data ++
        (", got ".data ++ (a.data ++ ("\n\n".data ++ (stripAnsi out).data))),
        isPyWs x = false :=
      ⟨',', List.mem_append.mpr (Or.inr (List.mem_append.mpr
        (Or.inl (by decide)))), by decide⟩
    have hpre : "WARNING: Wrong account! Expected ".data <+:
        pyStripL ((mkWarning (expectedEmailOf reg connection) a ++
          stripAnsi out).data) := by
      rw [hdata, hW]
      exact pyStripL_keepsHead 'W' ("ARNING: Wrong account! Expected ".data) _
        (by decide) hcomma
    have hne : pyStrip (mkWarning (expectedEmailOf reg connection) a ++
        stripAnsi out) ≠ "" := by
      intro hcontra
      have hnil : pyStripL ((mkWarning (expectedEmailOf reg connection) a ++
          stripAnsi out).data) = [] := congrArg String.data hcontra
      rw [hnil] at hpre
      obtain ⟨t, ht⟩ := hpre
      exact absurd (List.append_eq_nil.mp ht).1 (by decide)
    have h23 : expectedEmailOf reg connection ≠ "" ∧
        asciiLower (expectedEmailOf reg connection) ≠ asciiLower a := ⟨h2, h3⟩
    have hrender : renderSuccess reg connection out (some a) =
        pyStrip (mkWarning (expectedEmailOf reg connection) a ++
          stripAnsi out) := by
      simp only [expectedEmailOf] at h23 hne
      simp only [renderSuccess, expectedEmailOf]
      rw [if_pos h1, if_pos h23, if_neg hne]
    exact ⟨hrender, hrender ▸ hpre⟩
  · intro h
    have hcond : ¬ (expectedEmailOf reg connection ≠ "" ∧
        asciiLower (expectedEmailOf reg connection) ≠ asciiLower a) := by
      rcases h with h | h
      · exact fun hc => hc.1 h
      · exact fun hc => hc.2 h
    by_cases ha : a = ""
    · simp [renderSuccess, ha]
    · simp only [expectedEmailOf] at hcond
      simp only [renderSuccess]
      rw [if_pos ha, if_neg hcond]

/-- **C2 witness.** The spec's example: expected `a@b.com`, pool
authenticated as `x@y.com`, coloured output `ESC[32m OK ESC[0m`: the
rendering is the warning plus the plain `OK`. -/
theorem c2_witness :
    renderSuccess [("c", [("expectedEmail", .str "a@b.com")])] "c"
        "\x1b[32mOK\x1b[0m" (some "x@y.com") =
      pyStrip (mkWarning "a@b.com" "x@y.com" ++ stripAnsi "\x1b[32mOK\x1b[0m") ∧
    "WARNING: Wrong account! Expected ".data <+:
      (renderSuccess [("c", [("expectedEmail", .str "a@b.com")])] "c"
        "\x1b[32mOK\x1b[0m" (some "x@y.com")).data :=
  (c2_identity_mismatch_warning [("c", [("expectedEmail", .str "a@b.com")])]
    "c" "\x1b[32mOK\x1b[0m" "x@y.com").1 (by decide) (by decide) (by decide)

/-- **C3.** The rendering of a `status == "auth_required"` pool
response contains the device code, the sign-in URL, the sign-in hint —
`expectedEmail` when truthy, otherwise derived from the connection's
`tenant` when that is truthy — and the instruction to retry the
command after authenticating. -/
theorem c3_auth_required_rendering (reg : Registry)
    (connection module device_code : String) :
    containsSub (renderAuthRequired reg connection module device_code)
      device_code ∧
    containsSub (renderAuthRequired reg connection module device_code)
      "https://microsoft.com/devicelogin" ∧
    (expectedEmailOf reg connection ≠ "" →
      containsSub (renderAuthRequired reg connection module device_code)
        (">>> SIGN IN AS: " ++ expectedEmailOf reg connection ++ " <<<")) ∧
    (expectedEmailOf reg connection = "" → tenantOf reg connection ≠ "" →
      containsSub (renderAuthRequired reg connection module device_code)
        (">>> Sign in with your @" ++ tenantOf reg connection ++
          " account <<<")) ∧
    containsSub (renderAuthRequired reg connection module device_code)
      "After authenticating, retry the command." := by
  refine ⟨?_, ?_, ?_, ?_, ?_⟩
  · refine ⟨"**DEVICE CODE: ",
      "**\nGo to: https://microsoft.com/devicelogin\n" ++
        mkSignInHint ((dget reg connection).getD []) ++ "\n\nConnection: " ++
        connection ++ "\nModule: " ++ module ++
        "\n\nAfter authenticating, retry the command.", ?_⟩
    rw [String.ext_iff]
    simp [renderAuthRequired, String.data_append]
  · refine ⟨"**DEVICE CODE: " ++ device_code ++ "**\nGo to: ",
      "\n" ++ mkSignInHint ((dget reg connection).getD []) ++
        "\n\nConnection: " ++ connection ++ "\nModule: " ++ module ++
        "\n\nAfter authenticating, retry the command.", ?_⟩
    rw [String.ext_iff]
    simp [renderAuthRequired, String.data_append]
  · intro hee
    have hhint : mkSignInHint ((dget reg connection).getD []) =
        "\n>>> SIGN IN AS: " ++ expectedEmailOf reg connection ++ " <<<" := by
      simp only [mkSignInHint, expectedEmailOf] at hee ⊢
      rw [if_pos hee]
    refine ⟨"**DEVICE CODE: " ++ device_code ++
      "**\nGo to: https://microsoft.com/devicelogin\n" ++ "\n",
      "\n\nConnection: " ++ connection ++ "\nModule: " ++ module ++
        "\n\nAfter authenticating, retry the command.", ?_⟩
    rw [String.ext_iff]
    simp [renderAuthRequired, hhint, String.data_append]
  · intro hee ht
    have hhint : mkSignInHint ((dget reg connection).getD []) =
        "\n>>> Sign in with your @" ++ tenantOf reg connection ++
          " account <<<" := by
      simp only [mkSignInHint, expectedEmailOf] at hee
      simp only [mkSignInHint, tenantOf] at ht ⊢
      rw [if_neg (fun hc => hc hee), if_pos ht]
    refine ⟨"**DEVICE CODE: " ++ device_code ++
      "**\nGo to: https://microsoft.com/devicelogin\n" ++ "\n",
      "\n\nConnection: " ++ connection ++ "\nModule: " ++ module ++
        "\n\nAfter authenticating, retry the command.", ?_⟩
    rw [String.ext_iff]
    simp [renderAuthRequired, hhint, String.data_append]
  · refine ⟨"**DEVICE CODE: " ++ device_code ++
      "**\nGo to: https://microsoft.com/devicelogin\n" ++
      mkSignInHint ((dget reg connection).getD []) ++ "\n\nConnection: " ++
      connection ++ "\nModule: " ++ module ++ "\n\n", "", ?_⟩
    rw [String.ext_iff]
    simp [renderAuthRequired, String.data_append]

/-- **C3 witness.** The spec's example: device code `ABC-123` for a
connection with `expectedEmail` `a@b.com` — the rendering carries the
device code and the literal hint. -/
theorem c3_witness :
    containsSub (renderAuthRequired
        [("c", [("expectedEmail", .str "a@b.com")])] "c" "exo" "ABC-123")
      (">>> SIGN IN AS: " ++ "a@b.com" ++ " <<<") :=
  (c3_auth_required_rendering [("c", [("expectedEmail", .str "a@b.com")])]
    "c" "exo" "ABC-123").2.2.1 (by decide)

/-! ## Claims C4, C7, C8, C10: the registry tool operations -/

/-- **C4.** `connection_add` fails with the distinct structured shapes
— "missing fields" when any required field is falsy, "invalid appId"
(fields all present) when the appId fails GUID validation, "already
exists" (fields present, appId valid) when the name is already bound —
and in each of these failure cases no registry write is attempted. -/
theorem c4_connection_add_error_shapes (a : AddArgs) (reg : Registry)
    (saveOk : Bool) :
    (a.missing ≠ [] →
      connection_add a reg saveOk = (.errMissing a.missing, none)) ∧
    (a.missing = [] → ¬ is_valid_guid (pyStrip (a.appId.getD "")) →
      connection_add a reg saveOk =
        (.errInvalidAppId (pyStrip (a.appId.getD "")), none)) ∧
    (a.missing = [] → is_valid_guid (pyStrip (a.appId.getD "")) →
      (dget reg (pyStrip (a.name.getD ""))).isSome →
      connection_add a reg saveOk =
        (.errExists (pyStrip (a.name.getD "")), none)) ∧
    (∀ fields appId name,
      (connection_add a reg saveOk).1 = .errMissing fields ∨
      (connection_add a reg saveOk).1 = .errInvalidAppId appId ∨
      (connection_add a reg saveOk).1 = .errExists name →
      (connection_add a reg saveOk).2 = none) := by
  refine ⟨?_, ?_, ?_, ?_⟩
  · intro h
    simp [connection_add, h]
  · intro h1 h2
    simp [connection_add, h1, h2]
  · intro h1 h2 h3
    simp [connection_add, h1, h2, h3]
  · intro fields appId name h
    by_cases h1 : a.missing = []
    · by_cases h2 : is_valid_guid (pyStrip (a.appId.getD "")) = true
      · by_cases h3 : (dget reg (pyStrip (a.name.getD ""))).isSome = true
        · simp [connection_add, h1, h2, h3]
        · rcases h with h | h | h <;>
            cases saveOk <;> simp [connection_add, h1, h2, h3] at h
      · simp [connection_add, h1, h2]
    · simp [connection_add, h1]

/-- **C4 witness.** Adding with a malformed appId, and adding a name
that already exists: the distinct error shapes, no write attempted. -/
theorem c4_witness :
    connection_add
        { name := some "X", tenant := some "t.com",
          appId := some "not-a-guid", description := some "d",
          mcps := some ["mm"] } [] true =
      (.errInvalidAppId "not-a-guid", none) ∧
    connection_add
        { name := some "X", tenant := some "t.com",
          appId := some "12345678-1234-1234-1234-123456789abc",
          description := some "d", mcps := some ["mm"] }
        [("X", [("tenant", .str "old")])] true =
      (.errExists "X", none) :=
  ⟨(c4_connection_add_error_shapes
      { name := some "X", tenant := some "t.com",
        appId := some "not-a-guid", description := some "d",
        mcps := some ["mm"] } [] true).2.1 (by decide) (by decide),
   (c4_connection_add_error_shapes
      { name := some "X", tenant := some "t.com",
        appId := some "12345678-1234-1234-1234-123456789abc",
        description := some "d", mcps := some ["mm"] }
      [("X", [("tenant", .str "old")])] true).2.2.1
      (by decide) (by decide) (by decide)⟩

/-- **C7.** `connection_remove` on an absent (truthy) name returns the
"not found" error carrying the current name list and attempts no
write; on a present name it removes exactly that binding, saves the
registry without it (the saved registry no longer binds the name,
given the dict invariant of unique keys), and returns the removed
record. -/
theorem c7_connection_remove (name? : Option String) (reg : Registry)
    (saveOk : Bool) :
    (pyStrip (name?.getD "") ≠ "" →
      dget reg (pyStrip (name?.getD "")) = none →
      connection_remove name? reg saveOk =
        (.errNotFound (pyStrip (name?.getD "")) (dkeys reg), none)) ∧
    (∀ c, pyStrip (name?.getD "") ≠ "" →
      dget reg (pyStrip (name?.getD "")) = some c → saveOk = true →
      connection_remove name? reg saveOk =
        (.ok (pyStrip (name?.getD "")) c,
          some (derase reg (pyStrip (name?.getD "")))) ∧
      ((dkeys reg).Nodup →
        dget (derase reg (pyStrip (name?.getD "")))
          (pyStrip (name?.getD "")) = none)) := by
  constructor
  · intro hn habs
    simp [connection_remove, hn, habs]
  · intro c hn hc hs
    subst hs
    refine ⟨by simp [connection_remove, hn, hc], ?_⟩
    intro hnd
    exact dget_derase_self reg _ hnd

/-- **C7 witness.** Removing a missing name returns not-found with the
available list and no write; removing a present name yields a saved
registry that no longer binds it. -/
theorem c7_witness :
    connection_remove (some "gone")
        [("A", [("tenant", .str "a.com")])] true =
      (.errNotFound "gone" ["A"], none) ∧
    connection_remove (some "A")
        [("A", [("tenant", .str "a.com")]), ("B", [])] true =
      (.ok "A" [("tenant", .str "a.com")], some [("B", [])]) ∧
    dget (derase [("A", [("tenant", JVal.str "a.com")]), ("B", [])] "A")
      "A" = none :=
  ⟨(c7_connection_remove (some "gone") [("A", [("tenant", .str "a.com")])]
      true).1 (by decide) (by decide),
   ((c7_connection_remove (some "A")
      [("A", [("tenant", .str "a.com")]), ("B", [])] true).2
      [("tenant", .str "a.com")] (by decide) (by decide) rfl).1,
   ((c7_connection_remove (some "A")
      [("A", [("tenant", .str "a.com")]), ("B", [])] true).2
      [("tenant", .str "a.com")] (by decide) (by decide) rfl).2 (by decide)⟩

/-- A guarded assignment leaves every other key's binding unchanged. -/
theorem dget_ite_dset_ne {α : Type} (c : Prop) [Decidable c]
    (m : List (String × α)) (key k : String) (v : α) (h : c → k ≠ key) :
    dget (if c then dset m key v else m) k = dget m k := by
  split
  · next hc => exact dget_dset_ne m key k v (h hc)
  · rfl

/-- **C8.** For a resolvable name, `connection_update` (i) returns the
distinct "no changes" result with no write when no recognized field is
supplied; (ii) re-validates a supplied `appId` and fails with no write
when it is malformed; (iii) otherwise writes back the record with
exactly the supplied fields changed and returns exactly that field
list; the updated record agrees with the old one on every key outside
the supplied list (in particular all unsupplied fields survive), each
supplied field holds its new value, and every other connection's
binding is untouched. -/
theorem c8_connection_update_frame (a : UpdateArgs) (reg : Registry)
    (saveOk : Bool) (conn : Conn)
    (hn : pyStrip (a.name.getD "") ≠ "")
    (hc : dget reg (pyStrip (a.name.getD "")) = some conn) :
    (a.supplied = [] →
      connection_update a reg saveOk = (.noChanges, none)) ∧
    (truthyS a.appId → ¬ is_valid_guid (a.appId.getD "") →
      connection_update a reg saveOk =
        (.errInvalidAppId (a.appId.getD ""), none)) ∧
    (¬ (truthyS a.appId ∧ ¬ is_valid_guid (a.appId.getD "")) →
      a.supplied ≠ [] → saveOk = true →
      connection_update a reg saveOk =
        (.ok a.supplied (updatedConn a conn),
          some (dset reg (pyStrip (a.name.getD "")) (updatedConn a conn)))) ∧
    (∀ k, k ∉ a.supplied →
      dget (updatedConn a conn) k = dget conn k) ∧
    (truthyS a.appId →
      dget (updatedConn a conn) "appId" =
        some (.str (pyStrip (a.appId.getD "")))) ∧
    (truthyS a.tenant →
      dget (updatedConn a conn) "tenant" =
        some (.str (pyStrip (a.tenant.getD "")))) ∧
    (truthyS a.description →
      dget (updatedConn a conn) "description" =
        some (.str (pyStrip (a.description.getD "")))) ∧
    (truthyL a.mcps →
      dget (updatedConn a conn) "mcps" = some (.strs (a.mcps.getD []))) ∧
    (∀ n, n ≠ pyStrip (a.name.getD "") →
      dget (dset reg (pyStrip (a.name.getD "")) (updatedConn a conn)) n =
        dget reg n) := by
  refine ⟨?_, ?_, ?_, ?_, ?_, ?_, ?_, ?_, ?_⟩
  · intro hsup
    have hap : ¬ (truthyS a.appId = true ∧
        ¬ is_valid_guid (a.appId.getD "") = true) := by
      intro hcon
      have : a.supplied ≠ [] := by
        simp [UpdateArgs.supplied, hcon.1]
      exact this hsup
    have hap2 : truthyS a.appId = true →
        is_valid_guid (a.appId.getD "") = true := fun hta => by
      by_contra hbad
      exact hap ⟨hta, hbad⟩
    simp [connection_update, hn, hc, hap, hsup]
    exact hap2
  · intro h1 h2
    simp [connection_update, hn, hc, h1, h2]
  · intro h1 h2 h3
    subst h3
    have hap2 : truthyS a.appId = true →
        is_valid_guid (a.appId.getD "") = true := fun hta => by
      by_contra hbad
      exact h1 ⟨hta, hbad⟩
    simp [connection_update, hn, hc, h1, h2]
    exact hap2
  · intro k hk
    have hm : truthyL a.mcps = true → k ≠ "mcps" := fun ht he => hk (by
      subst he
      simp [UpdateArgs.supplied, ht])
    have hd : truthyS a.description = true → k ≠ "description" :=
      fun ht he => hk (by
        subst he
        simp [UpdateArgs.supplied, ht])
    have ht2 : truthyS a.tenant = true → k ≠ "tenant" := fun ht he => hk (by
      subst he
      simp [UpdateArgs.supplied, ht])
    have hap : truthyS a.appId = true → k ≠ "appId" := fun ht he => hk (by
      subst he
      simp [UpdateArgs.supplied, ht])
    show dget (updatedConn a conn) k = dget conn k
    unfold updatedConn
    refine (dget_ite_dset_ne _ _ _ _ _ hm).trans ?_
    refine (dget_ite_dset_ne _ _ _ _ _ hd).trans ?_
    refine (dget_ite_dset_ne _ _ _ _ _ ht2).trans ?_
    exact dget_ite_dset_ne _ _ _ _ _ hap
  · intro h1
    unfold updatedConn
    refine (dget_ite_dset_ne _ _ _ _ _ (fun _ => by decide)).trans ?_
    refine (dget_ite_dset_ne _ _ _ _ _ (fun _ => by decide)).trans ?_
    refine (dget_ite_dset_ne _ _ _ _ _ (fun _ => by decide)).trans ?_
    rw [if_pos h1]
    exact dget_dset_self conn "appId" _
  · intro h2
    unfold updatedConn
    refine (dget_ite_dset_ne _ _ _ _ _ (fun _ => by decide)).trans ?_
    refine (dget_ite_dset_ne _ _ _ _ _ (fun _ => by decide)).trans ?_
    rw [if_pos h2]
    exact dget_dset_self _ "tenant" _
  · intro h3
    unfold updatedConn
    refine (dget_ite_dset_ne _ _ _ _ _ (fun _ => by decide)).trans ?_
    rw [if_pos h3]
    exact dget_dset_self _ "description" _
  · intro h4
    unfold updatedConn
    rw [if_pos h4]
    exact dget_dset_self _ "mcps" _
  · intro n hne
    exact dget_dset_ne reg _ n _ hne

/-- **C8 witness.** Updating only `tenant` of a record that also holds
an out-of-band `expectedEmail`: result lists exactly `tenant`, the
`expectedEmail` and `appId` bindings survive, the other connection is
untouched; and an update with no recognized field returns "no
changes" with no write. -/
theorem c8_witness :
    connection_update { name := some "A", tenant := some "new.com" }
        [("A", [("appId", .str "g"), ("tenant", .str "old.com"),
                ("expectedEmail", .str "a@b.com")]), ("B", [])] true =
      (.ok ["tenant"]
        [("appId", .str "g"), ("tenant", .str "new.com"),
         ("expectedEmail", .str "a@b.com")],
       some [("A", [("appId", .str "g"), ("tenant", .str "new.com"),
                    ("expectedEmail", .str "a@b.com")]), ("B", [])]) ∧
    dget (updatedConn { name := some "A", tenant := some "new.com" }
        [("appId", .str "g"), ("tenant", .str "old.com"),
         ("expectedEmail", .str "a@b.com")]) "expectedEmail" =
      some (.str "a@b.com") ∧
    connection_update { name := some "A" }
        [("A", [("appId", .str "g")])] true = (.noChanges, none) :=
  ⟨((c8_connection_update_frame { name := some "A", tenant := some "new.com" }
      [("A", [("appId", .str "g"), ("tenant", .str "old.com"),
              ("expectedEmail", .str "a@b.com")]), ("B", [])] true
      [("appId", .str "g"), ("tenant", .str "old.com"),
       ("expectedEmail", .str "a@b.com")]
      (by decide) (by decide)).2.2.1 (by decide) (by decide) rfl).trans
      (by decide),
   ((c8_connection_update_frame { name := some "A", tenant := some "new.com" }
      [("A", [("appId", .str "g"), ("tenant", .str "old.com"),
              ("expectedEmail", .str "a@b.com")]), ("B", [])] true
      [("appId", .str "g"), ("tenant", .str "old.com"),
       ("expectedEmail", .str "a@b.com")]
      (by decide) (by decide)).2.2.2.1 "expectedEmail" (by decide)).trans
      (by decide),
   (c8_connection_update_frame { name := some "A" }
      [("A", [("appId", .str "g")])] true [("appId", .str "g")]
      (by decide) (by decide)).1 (by decide)⟩

/-- **C10.** Records created through the gateway hold exactly the keys
`appId, tenant, description, mcps` (string values `.strip()`ped, as
`newRecord` shows), and a successful `connection_add` stores exactly
such a record; `connection_update` leaves every key outside that set
— in particular `expectedEmail`, the field the auth-state dispatcher
reads — bound exactly as before.  Hence no gateway operation can
create or modify `expectedEmail`; it can only enter the registry
out-of-band. -/
theorem c10_expectedEmail_out_of_band (a : AddArgs) (ua : UpdateArgs)
    (conn : Conn) (reg : Registry) :
    dkeys (newRecord a) = ["appId", "tenant", "description", "mcps"] ∧
    dget (newRecord a) "expectedEmail" = none ∧
    (a.missing = [] → is_valid_guid (pyStrip (a.appId.getD "")) →
      ¬ (dget reg (pyStrip (a.name.getD ""))).isSome →
      connection_add a reg true =
        (.ok (pyStrip (a.name.getD "")),
          some (dset reg (pyStrip (a.name.getD "")) (newRecord a)))) ∧
    (∀ k, k ∉ (["appId", "tenant", "description", "mcps"] : List String) →
      dget (updatedConn ua conn) k = dget conn k) ∧
    dget (updatedConn ua conn) "expectedEmail" =
      dget conn "expectedEmail" := by
  refine ⟨rfl, ?_, ?_, ?_, ?_⟩
  · simp [newRecord, dget_cons]
  · intro h1 h2 h3
    simp [connection_add, h1, h2, h3]
  · intro k hk
    simp only [List.mem_cons, List.not_mem_nil, or_false, not_or] at hk
    unfold updatedConn
    refine (dget_ite_dset_ne _ _ _ _ _ (fun _ => hk.2.2.2)).trans ?_
    refine (dget_ite_dset_ne _ _ _ _ _ (fun _ => hk.2.2.1)).trans ?_
    refine (dget_ite_dset_ne _ _ _ _ _ (fun _ => hk.2.1)).trans ?_
    exact dget_ite_dset_ne _ _ _ _ _ (fun _ => hk.1)
  · unfold updatedConn
    refine (dget_ite_dset_ne _ _ _ _ _ (fun _ => by decide)).trans ?_
    refine (dget_ite_dset_ne _ _ _ _ _ (fun _ => by decide)).trans ?_
    refine (dget_ite_dset_ne _ _ _ _ _ (fun _ => by decide)).trans ?_
    exact dget_ite_dset_ne _ _ _ _ _ (fun _ => by decide)

/-- **C10 witness.** A concrete successful add stores exactly the
four-key record with stripped string values and no `expectedEmail`. -/
theorem c10_witness :
    connection_add
        { name := some " X ", tenant := some " t.com ",
          appId := some "12345678-1234-1234-1234-123456789abc",
          description := some "d", mcps := some ["mm"] } [] true =
      (.ok "X", some [("X",
        [("appId", .str "12345678-1234-1234-1234-123456789abc"),
         ("tenant", .str "t.com"), ("description", .str "d"),
         ("mcps", .strs ["mm"])])]) ∧
    dget (updatedConn { name := some "A", tenant := some "n.com" }
        [("expectedEmail", .str "a@b.com")]) "expectedEmail" =
      some (.str "a@b.com") :=
  ⟨((c10_expectedEmail_out_of_band
      { name := some " X ", tenant := some " t.com ",
        appId := some "12345678-1234-1234-1234-123456789abc",
        description := some "d", mcps := some ["mm"] }
      {} [] []).2.2.1 (by decide) (by decide) (by decide)).trans (by decide),
   ((c10_expectedEmail_out_of_band
      { name := some "X" } { name := some "A", tenant := some "n.com" }
      [("expectedEmail", .str "a@b.com")] []).2.2.2.2).trans (by decide)⟩

/-! ## Claims C5, C6: the pwsh-manager connection filter and the
disconnect confirmation guard -/

theorem isSome_dget_of_mem_dkeys {α : Type} (m : List (String × α))
    (k : String) (h : k ∈ dkeys m) : (dget m k).isSome = true := by
  induction m with
  | nil => simp at h
  | cons p rest ih =>
    obtain ⟨k₀, v₀⟩ := p
    by_cases h0 : k₀ = k
    · simp [dget_cons, h0]
    · simp only [dkeys_cons, List.mem_cons] at h
      rcases h with h | h
      · exact absurd h.symm h0
      · simp only [dget_cons, if_neg h0]
        exact ih h

theorem dget_of_mem_nodup {α : Type} (m : List (String × α))
    (k : String) (v : α) (hnd : (dkeys m).Nodup) (h : (k, v) ∈ m) :
    dget m k = some v := by
  induction m with
  | nil => simp at h
  | cons p rest ih =>
    obtain ⟨k₀, v₀⟩ := p
    simp only [dkeys_cons, List.nodup_cons] at hnd
    rcases List.mem_cons.mp h with h | h
    · rw [Prod.mk.injEq] at h
      obtain ⟨hk, hv⟩ := h
      subst hk
      subst hv
      simp [dget_cons]
    · have hk0 : ¬ k₀ = k := by
        intro he
        subst he
        exact hnd.1 (List.mem_map.mpr ⟨(k₀, v), h, rfl⟩)
      simp only [dget_cons, if_neg hk0]
      exact ih hnd.2 h

/-- Under the dict invariant, a connection hidden from (or unknown to)
an adapter never passes that adapter's filter. -/
theorem filter_fst_ne (reg : Registry) (mcp name : String)
    (hnd : (dkeys reg).Nodup)
    (h : dget reg name = none ∨
      ∃ c, dget reg name = some c ∧ mcp ∉ getStrs c "mcps") :
    ∀ p ∈ reg.filter (fun p => mcp ∈ getStrs p.2 "mcps"), p.1 ≠ name := by
  intro p hp he
  have hpr := List.mem_filter.mp hp
  have hpmem : p ∈ reg := hpr.1
  have hpred : mcp ∈ getStrs p.2 "mcps" := by
    simpa using hpr.2
  have hpe : (name, p.2) ∈ reg := by
    rw [← he]
    exact hpmem
  rcases h with h | ⟨c, hc, hcm⟩
  · have hin : name ∈ dkeys reg := List.mem_map.mpr ⟨(name, p.2), hpe, rfl⟩
    have := isSome_dget_of_mem_dkeys reg name hin
    rw [h] at this
    simp at this
  · have hsome := dget_of_mem_nodup reg name p.2 hnd hpe
    rw [hc] at hsome
    injection hsome with hsame
    rw [hsame] at hcm
    exact hcm hpred

/-- **C5.** For every registry, adapter id and name: a name that is
absent, or present but whose `mcps` does not list the adapter, is (i)
not resolved by `get_connection`, (ii) answered by the connection-name
tools with the one "not found" response — the same message and
available-list shape in both cases, so the caller cannot tell them
apart — and (iii) never listed by that adapter's filter (under the
dict invariant of unique keys). -/
theorem c5_filter_not_found_indistinguishable (reg : Registry)
    (mcp name tool : String) (pool : PoolCall → PoolResp)
    (args : PwshArgs)
    (htool1 : tool ≠ "pwsh_list_connections")
    (htool2 : tool ≠ "pwsh_sessions")
    (hargs : args.connectionName = some name) (hname : name ≠ "")
    (h : dget reg name = none ∨
      ∃ c, dget reg name = some c ∧ mcp ∉ getStrs c "mcps") :
    get_connection reg mcp name = none ∧
    handle_call_tool_impl reg mcp pool tool args =
      (.connNotFound (notFoundMessage mcp name)
        (list_available_connections reg mcp), []) ∧
    ((dkeys reg).Nodup → name ∉ list_available_connections reg mcp) := by
  have hgc : get_connection reg mcp name = none := by
    rcases h with h | ⟨c, hc, hcm⟩
    · simp [get_connection, h]
    · simp [get_connection, hc, hcm]
  refine ⟨hgc, ?_, ?_⟩
  · simp [handle_call_tool_impl, htool1, htool2, hargs, hname, hgc]
  · intro hnd hmem
    obtain ⟨p, hp, hpe⟩ := List.mem_map.mp hmem
    exact filter_fst_ne reg mcp name hnd h p hp hpe

/-- **C5 witness.** A registry holding `Hidden` (authorized only for
`"mm"`): to the `pwsh-manager` adapter, resolving `Hidden` and
resolving the truly absent `Ghost` give the identical not-found
response shape, and `Hidden` is not listed. -/
theorem c5_witness :
    handle_call_tool_impl
        [("Hidden", [("mcps", .strs ["mm"])])] MCP_NAME
        (fun _ => {}) "pwsh_run" { connectionName := some "Hidden" } =
      (.connNotFound (notFoundMessage MCP_NAME "Hidden") [], []) ∧
    handle_call_tool_impl
        [("Hidden", [("mcps", .strs ["mm"])])] MCP_NAME
        (fun _ => {}) "pwsh_run" { connectionName := some "Ghost" } =
      (.connNotFound (notFoundMessage MCP_NAME "Ghost") [], []) ∧
    "Hidden" ∉ list_available_connections
      [("Hidden", [("mcps", .strs ["mm"])])] MCP_NAME :=
  ⟨(c5_filter_not_found_indistinguishable
      [("Hidden", [("mcps", .strs ["mm"])])] MCP_NAME "Hidden" "pwsh_run"
      (fun _ => {}) { connectionName := some "Hidden" }
      (by decide) (by decide) rfl (by decide)
      (Or.inr ⟨[("mcps", .strs ["mm"])], rfl, by decide⟩)).2.1,
   (c5_filter_not_found_indistinguishable
      [("Hidden", [("mcps", .strs ["mm"])])] MCP_NAME "Ghost" "pwsh_run"
      (fun _ => {}) { connectionName := some "Ghost" }
      (by decide) (by decide) rfl (by decide) (Or.inl (by decide))).2.1,
   (c5_filter_not_found_indistinguishable
      [("Hidden", [("mcps", .strs ["mm"])])] MCP_NAME "Hidden" "pwsh_run"
      (fun _ => {}) { connectionName := some "Hidden" }
      (by decide) (by decide) rfl (by decide)
      (Or.inr ⟨[("mcps", .strs ["mm"])], rfl, by decide⟩)).2.2 (by decide)⟩

/-- **C6 counterexample.** A `pwsh_disconnect` invocation with a wrong
confirmation token *and* an unknown connection name: no pool call is
issued, but the error returned is the not-found shape, not the
confirmation-required shape — so "a confirmation-required error is
returned" does not hold of *every* wrong-token invocation. -/
theorem c6_counterexample :
    (handle_call_tool_impl [] MCP_NAME (fun _ => {}) "pwsh_disconnect"
        { connectionName := some "x", confirmation := some "" }).2 = [] ∧
    (handle_call_tool_impl [] MCP_NAME (fun _ => {}) "pwsh_disconnect"
        { connectionName := some "x", confirmation := some "" }).1 =
      .connNotFound (notFoundMessage MCP_NAME "x") [] ∧
    (handle_call_tool_impl [] MCP_NAME (fun _ => {}) "pwsh_disconnect"
        { connectionName := some "x", confirmation := some "" }).1 ≠
      .confirmationRequired := by
  refine ⟨rfl, rfl, ?_⟩
  intro h
  exact PwshOut.noConfusion h

/-- **C6 (amended).** A `pwsh_disconnect` invocation whose confirmation
token is not exactly `"DISCONNECT"` issues no pool call at all; and
when the connection name resolves for this adapter, the returned
error is the confirmation-required shape.  (When the name is missing
or does not resolve, the resolution error is returned first — still
with no pool call.) -/
theorem c6_disconnect_confirmation_guard (reg : Registry) (mcp : String)
    (pool : PoolCall → PoolResp) (args : PwshArgs)
    (hconf : args.confirmation.getD "" ≠ "DISCONNECT") :
    (handle_call_tool_impl reg mcp pool "pwsh_disconnect" args).2 = [] ∧
    (∀ conn, args.connectionName.getD "" ≠ "" →
      get_connection reg mcp (args.connectionName.getD "") = some conn →
      handle_call_tool_impl reg mcp pool "pwsh_disconnect" args =
        (.confirmationRequired, [])) := by
  constructor
  · by_cases hcn : args.connectionName.getD "" = ""
    · simp [handle_call_tool_impl, hcn]
    · cases hgc : get_connection reg mcp (args.connectionName.getD "") with
      | none => simp [handle_call_tool_impl, hcn, hgc]
      | some conn => simp [handle_call_tool_impl, hcn, hgc, hconf]
  · intro conn hcn hgc
    simp [handle_call_tool_impl, hcn, hgc, hconf]

/-- **C6 witness.** With connection `A` authorized for this adapter and
confirmation `"disconnect"` (wrong case): no pool call, and the
confirmation-required error. -/
theorem c6_witness :
    (handle_call_tool_impl [("A", [("mcps", .strs ["pwsh-manager"])])]
        MCP_NAME (fun _ => {}) "pwsh_disconnect"
        { connectionName := some "A",
          confirmation := some "disconnect" }).2 = [] ∧
    handle_call_tool_impl [("A", [("mcps", .strs ["pwsh-manager"])])]
        MCP_NAME (fun _ => {}) "pwsh_disconnect"
        { connectionName := some "A", confirmation := some "disconnect" } =
      (.confirmationRequired, []) :=
  ⟨(c6_disconnect_confirmation_guard
      [("A", [("mcps", .strs ["pwsh-manager"])])] MCP_NAME (fun _ => {})
      { connectionName := some "A", confirmation := some "disconnect" }
      (by decide)).1,
   (c6_disconnect_confirmation_guard
      [("A", [("mcps", .strs ["pwsh-manager"])])] MCP_NAME (fun _ => {})
      { connectionName := some "A", confirmation := some "disconnect" }
      (by decide)).2 [("mcps", .strs ["pwsh-manager"])]
      (by decide) (by decide)⟩

/-! ## Claim C9: transport error normalization of the pool clients -/

/-- **C9 counterexample.** In the pwsh-manager client a read timeout is
caught by the generic handler: the result is the
`{"success": False, "error": str(e)}` shape — it has no `status` key
and its error text is the exception text, not `"Request timed out"`.
So "a timeout yields `{status:"error", error:"Request timed out"}`"
does not hold of both adapters' clients. -/
theorem c9_counterexample :
    api_call (.timeout "HTTPSConnectionPool: Read timed out.") =
      [("success", .bool false),
       ("error", .str "HTTPSConnectionPool: Read timed out.")] ∧
    dget (api_call (.timeout "HTTPSConnectionPool: Read timed out."))
      "status" = none ∧
    dget (api_call (.timeout "HTTPSConnectionPool: Read timed out."))
      "error" ≠ some (.str "Request timed out") := by
  refine ⟨rfl, rfl, ?_⟩
  intro h
  simp [api_call, dget_cons] at h

/-- **C9 (amended).** Transport failures never escape as raised faults;
each client normalizes every failure into its own single structured
shape: the microsoft-master client returns
`{"status": "error", "error": …}`, with the fixed text
`"Request timed out"` on timeout; the pwsh-manager client returns
`{"success": False, "error": …}`, with a fixed cannot-connect text on
connection errors and the exception text otherwise (timeouts
included). -/
theorem c9_transport_error_normalization :
    (∀ m, call_pool (.timeout m) =
      [("status", .str "error"), ("error", .str "Request timed out")]) ∧
    (∀ o : HttpxOutcome, (∀ r, o ≠ .ok r) →
      statusErrorShape (call_pool o)) ∧
    (∀ m, api_call (.connectionError m) =
      [("success", .bool false),
       ("error",
        .str "Cannot connect to pwsh-manager. Is Docker running?")]) ∧
    (∀ o : ReqOutcome, (∀ r, o ≠ .ok r) →
      successFalseShape (api_call o)) := by
  refine ⟨fun m => rfl, ?_, fun m => rfl, ?_⟩
  · intro o h
    cases o with
    | ok r => exact absurd rfl (h r)
    | timeout m => exact ⟨"Request timed out", rfl⟩
    | exc m => exact ⟨m, rfl⟩
  · intro o h
    cases o with
    | ok r => exact absurd rfl (h r)
    | connectionError m =>
      exact ⟨"Cannot connect to pwsh-manager. Is Docker running?", rfl⟩
    | timeout m => exact ⟨m, rfl⟩
    | exc m => exact ⟨m, rfl⟩

/-- **C9 witness.** The normalized shapes at concrete failures. -/
theorem c9_witness :
    statusErrorShape (call_pool (.exc "Connection refused")) ∧
    successFalseShape (api_call (.timeout "read timed out")) :=
  ⟨c9_transport_error_normalization.2.1 (.exc "Connection refused")
      (fun _ h => HttpxOutcome.noConfusion h),
   c9_transport_error_normalization.2.2.2 (.timeout "read timed out")
      (fun _ h => ReqOutcome.noConfusion h)⟩

end M365
